import Mathlib

/-!
# A verification development for the dbSNP package

This file gives a shallow embedding, in Lean 4, of the core of the `dbSNP`
Python package (`dbSNP/db.py` and `dbSNP/build.py`) and proves or refutes the
behavioural claims of its specification against that embedding.

Modelling conventions:
* Python machine-level effects (sqlite storage, the random generator, the
  filesystem) are modelled as explicit data: the `dbSNP` table is a
  `List Record` / `List Row` in rowid order, the `dbInfo` table is a
  `List (String × String)` association list, random draws are an oracle list,
  and `os.path.isdir` is an oracle function.
* Python exceptions are modelled by `Except PyErr`; each `PyErr` constructor
  records both the concrete Python exception raised by the code and the name
  the specification's error taxonomy gives it.
* Python 3 semantics are used for the mixed `int`/`str` comparison performed
  by `sorted` (such a comparison raises `TypeError`); this matters only for
  `chrom_key`, whose fallback branch returns a string.
* Python `int(...)` parsing is modelled for ASCII decimal strings with an
  optional sign and surrounding whitespace (PEP 515 underscore grouping and
  non-ASCII digits are not modelled; no value in this development uses them).
-/

namespace DbSNP

/-- Python exceptions raised by the code, tagged with the specification's
error-taxonomy names. -/
inductive PyErr where
  /-- Python `ValueError` from tuple unpacking of a malformed line
  (spec: `ParseError`). -/
  | parseError
  /-- Python `ValueError` from `DB.__init__` on a bad location
  (spec: `ConfigurationError`). -/
  | configError
  /-- Python `TypeError` (`None[0]`) in `DB.__len__` when no `length`
  metadata row exists (spec: `NotInitializedError`). -/
  | notInitialized
  /-- Python `AssertionError` or `ValueError` for malformed query input
  (spec: `InvalidArgumentError`). -/
  | invalidArg
  /-- Python `TypeError` from the mixed `int` and `str` comparison made by
  `sorted` under Python 3. -/
  | typeError
  /-- Python `ValueError` from `int(...)` on a non-numeric string. -/
  | valueError
  deriving DecidableEq, Repr

/-! ## Python string primitives -/

/-- The ASCII whitespace characters stripped by Python's default strip operations. -/
def pyIsSpace (c : Char) : Bool :=
  c = ' ' ∨ c = '\t' ∨ c = '\n' ∨ c = '\x0d' ∨ c = '\x0b' ∨ c = '\x0c'

/-- Python `str.strip()` (no argument), on the character list of a string. -/
def pyStripChars (l : List Char) : List Char :=
  ((l.dropWhile pyIsSpace).reverse.dropWhile pyIsSpace).reverse

/-- Python `str.rstrip()` (no argument): drop trailing whitespace. -/
def pyRstrip (s : String) : String :=
  ⟨(s.data.reverse.dropWhile pyIsSpace).reverse⟩

/-- Python `str.rstrip('/')`: drop trailing slashes. -/
def pyRstripSlash (s : String) : String :=
  ⟨(s.data.reverse.dropWhile (· = '/')).reverse⟩

/-- Prefix test on character lists (an empty candidate is a prefix of
anything). -/
def charsStartWith : List Char → List Char → Bool
  | _, [] => true
  | [], _ :: _ => false
  | c :: cs, p :: ps => c == p && charsStartWith cs ps

/-- Python `s.startswith(t)`. -/
def pyStartsWith (s t : String) : Bool :=
  charsStartWith s.data t.data

/-- Python `s.endswith(t)`. -/
def pyEndsWith (s t : String) : Bool :=
  charsStartWith s.data.reverse t.data.reverse

/-- Python `s[3:]` (drop a number of leading characters). -/
def pyDrop (s : String) (n : Nat) : String :=
  ⟨s.data.drop n⟩

/-- Python `s.upper()` (ASCII range; the chromosome labels involved are
ASCII). -/
def pyUpper (s : String) : String :=
  ⟨s.data.map Char.toUpper⟩

/-- Python `s.split('\t')` on a character list: split at every tab, keeping
empty fields. -/
def splitTabChars : List Char → List (List Char)
  | [] => [[]]
  | c :: cs =>
    if c = '\t' then [] :: splitTabChars cs
    else
      match splitTabChars cs with
      | [] => [[c]]
      | f :: rest => (c :: f) :: rest

/-- Python `line.split('\t')`. -/
def splitTab (s : String) : List String :=
  (splitTabChars s.data).map fun l => ⟨l⟩

/-- The value of an ASCII digit character. -/
def charDigitVal (c : Char) : Nat :=
  c.toNat - 48

/-- Parse a nonempty all-digit character list as a natural number
(most significant digit first). -/
def natOfDigitChars? (l : List Char) : Option Nat :=
  if !l.isEmpty && l.all Char.isDigit then
    some (Nat.ofDigits 10 ((l.map charDigitVal).reverse))
  else
    none

/-- Python `int(s)` for a string: strip whitespace, optional sign, decimal
digits; `none` models `ValueError`. -/
def pyInt? (s : String) : Option Int :=
  match pyStripChars s.data with
  | [] => none
  | c :: ds =>
    if c = '-' then (natOfDigitChars? ds).map (fun n => -(n : Int))
    else if c = '+' then (natOfDigitChars? ds).map (fun n => (n : Int))
    else (natOfDigitChars? (c :: ds)).map (fun n => (n : Int))

/-- The base-10 digits of `n`, least significant first, computed with
explicit fuel so that the definition is structurally recursive (and hence
evaluates inside the kernel); `natDecDigits` below supplies enough fuel. -/
def natDigitsFuel : Nat → Nat → List Nat
  | 0, _ => []
  | fuel + 1, n => if n = 0 then [] else n % 10 :: natDigitsFuel fuel (n / 10)

/-- The base-10 digits of `n`, least significant first (agrees with
`Nat.digits 10 n`). -/
def natDecDigits (n : Nat) : List Nat :=
  natDigitsFuel n n

/-- Python `str(n)` / `'{}'.format(n)` for a natural number: its decimal
representation. -/
def pyStr (n : Nat) : String :=
  if n = 0 then "0" else ⟨((natDecDigits n).map Nat.digitChar).reverse⟩

/-! ## Chromosome ordering (`chrom_key`, `db.py`) -/

/-- The value `chrom_key` returns: a Python `int` for numeric/X/Y/M
chromosomes, or the remainder string itself when the integer parse fails. -/
inductive Rank where
  | int (n : Int) : Rank
  | str (s : String) : Rank
  deriving DecidableEq, Repr

/-- Whether a rank is the integer kind. -/
def Rank.isIntRank : Rank → Bool
  | .int _ => true
  | .str _ => false

/-- The function `chrom_key` from `db.py`: strip a leading `chr`, map X/Y/M to 99/100/101,
otherwise try an integer parse and fall back to the remainder string. -/
def chrom_key (chrom : String) : Rank :=
  let c := if pyStartsWith chrom "chr" then pyDrop chrom 3 else chrom
  if pyUpper c = "X" then .int 99
  else if pyUpper c = "Y" then .int 100
  else if pyStartsWith (pyUpper c) "M" then .int 101
  else
    match pyInt? c with
    | some n => .int n
    | none => .str c

/-- Python 3 `<` on the values `chrom_key` returns: comparing an `int` with a
`str` raises `TypeError`, modelled as `none`. -/
def rankLtB? : Rank → Rank → Option Bool
  | .int a, .int b => some (decide (a < b))
  | .str a, .str b => some (decide (a < b))
  | _, _ => none

/-- A total extension of the rank comparison, used to model `sorted` on key
sets whose ranks are mutually comparable (all `int` or all `str`); on such
sets it agrees with Python 3 `<`, and the cross-kind cases are never
exercised. -/
def rankLeT : Rank → Rank → Bool
  | .int a, .int b => decide (a ≤ b)
  | .str a, .str b => decide (a ≤ b)
  | .int _, .str _ => true
  | .str _, .int _ => false

/-- The ordering `sorted(keys, key=chrom_key)` sorts by. -/
def chromLe (a b : String) : Prop :=
  rankLeT (chrom_key a) (chrom_key b) = true

instance : DecidableRel chromLe := fun a b =>
  Bool.decEq (rankLeT (chrom_key a) (chrom_key b)) true

instance : IsTotal String chromLe where
  total a b := by
    unfold chromLe
    rcases chrom_key a with n | u <;> rcases chrom_key b with m | v <;>
      simp [rankLeT, le_total]

instance : IsTrans String chromLe where
  trans a b c := by
    unfold chromLe
    rcases chrom_key a with n | u <;> rcases chrom_key b with m | v <;>
      rcases chrom_key c with p | w <;> simp [rankLeT] <;>
      exact fun h1 h2 => le_trans h1 h2
/-- Is every rank of the key set of one kind (all `int` or all `str`)?
Under Python 3 `sorted` raises `TypeError` as soon as it compares an `int`
rank with a `str` rank, which happens exactly when the key set mixes the two
kinds (any mixed list makes at least one cross-kind comparison). -/
def ranksComparable (ks : List String) : Bool :=
  (ks.all fun k => (chrom_key k).isIntRank) ||
    (ks.all fun k => !(chrom_key k).isIntRank)

/-- Python `sorted(keys, key=chrom_key)` under Python 3: a stable sort by rank,
raising `TypeError` (`none`) when the ranks mix `int` and `str`. -/
def pySortChroms (ks : List String) : Option (List String) :=
  if ranksComparable ks then some (List.insertionSort chromLe ks) else none

/-! ## The `dbSNP` table rows as seen by the query layer (`DB.Row`) -/

/-- A row of the `dbSNP` table with typed columns, as the query layer sees
it. The sqlite `end` column is called `stop` here (`end` is a Lean keyword);
`id` is the autoincrement primary key. -/
structure Row where
  id : Nat
  name : String
  chrom : String
  start : Int
  stop : Int
  strand : String
  deriving DecidableEq, Repr

/-! ## `DB.between` (`db.py`) -/

/-- The argument passed to `DB.between`: a Python dict from chromosome label
to a `(start, end)` window, or a value of some other type. -/
inductive BetweenArg where
  | dict (locs : List (String × Int × Int))
  | notDict

/-- The rows one iteration of the `between` loop collects for chromosome `c`:
`query().filter(Row.chrom == c).filter(Row.start.between(start, end)).all()`,
with SQL `BETWEEN` inclusive on both ends.  (The `getD` default is never
reached: `between` only calls this with `c` drawn from the keys of `locs`.) -/
def windowFilter (db : List Row) (locs : List (String × Int × Int))
    (c : String) : List Row :=
  let w := (locs.lookup c).getD (0, 0)
  db.filter fun v => v.chrom == c && decide (w.1 ≤ v.start) && decide (v.start ≤ w.2)

/-- The method `DB.between`: reject a non-dict argument (`ValueError`, the spec's
`InvalidArgumentError`), sort the keys by `chrom_key`, and concatenate one
range query per chromosome in that order. -/
def between (db : List Row) (arg : BetweenArg) : Except PyErr (List Row) :=
  match arg with
  | .notDict => .error .invalidArg
  | .dict locs =>
    match pySortChroms (locs.map Prod.fst) with
    | none => .error .typeError
    | some ks => .ok (ks.flatMap (windowFilter db locs))

/-! ## `DB.lookup_rsids` (`db.py`) -/

/-- A Python value supplied as an rsID: a string or something else
(a non-string is represented by an `int`, enough to express the type check
`isinstance(i, str)`). -/
inductive PyVal where
  | str (s : String)
  | int (n : Int)
  deriving DecidableEq, Repr

/-- The argument of `DB.lookup_rsids`: a single string or a list of values. -/
inductive RsArg where
  | one (s : String)
  | many (vals : List PyVal)

/-- The list the `for i in rsids` loop runs over: a single string becomes a
singleton list. -/
def rsArgVals : RsArg → List PyVal
  | .one s => [.str s]
  | .many vs => vs

/-- The two assertions of the loop body: `isinstance(i, str)` and
`i.startswith('rs')`. -/
def rsidOk : PyVal → Bool
  | .str s => pyStartsWith s "rs"
  | .int _ => false

/-- The method `DB.lookup_rsids`: assert every id is a string with prefix `rs`
(`AssertionError`, the spec's `InvalidArgumentError`), then return
`query().filter(Row.name.in_(rsids)).all()`. -/
def lookup_rsids (db : List Row) (arg : RsArg) : Except PyErr (List Row) :=
  let vals := rsArgVals arg
  if vals.all rsidOk then
    .ok (db.filter fun r => vals.contains (PyVal.str r.name))
  else .error .invalidArg

/-! ## `DB.random` (`db.py`) -/

/-- The method `DB.random`: `draws` is the stream of values produced by
`random.randint(1, len(self))` (one value when `count <= 1`, `count` values
otherwise).  For `count > 1` the query is `Row.id.in_(draws)`; otherwise it
is `Row.id == draw`. -/
def dbRandom (db : List Row) (draws : List Nat) (count : Int) : List Row :=
  if 1 < count then db.filter fun r => draws.contains r.id
  else db.filter fun r => r.id == draws.headD 0

/-! ## `DB.__len__` (`db.py`) -/

/-- The state of a `DB` handle that `__len__` touches: the `dbInfo` table
(rows `(name, value)` in storage order) and the `_length` cache attribute. -/
structure Handle where
  info : List (String × String)
  cached : Option Int
  deriving DecidableEq, Repr

/-- Python truthiness of the `_length` attribute (`None` and `0` are falsy),
i.e. the test `if not self._length` fails. -/
def pyTruthy : Option Int → Bool
  | none => false
  | some n => n != 0

/-- The query `query(Info.value).filter(Info.name == k).first()`: the value of the
first row whose name is `k`. -/
def infoFirst (info : List (String × String)) (k : String) : Option String :=
  (info.find? fun p => p.1 == k).map Prod.snd

/-- One call of `DB.__len__` on a handle: returns the length, the new handle
state, and whether storage was queried on this call.  A missing `length` row
is the `None[0]` `TypeError` (the spec's `NotInitializedError`); a
non-numeric value is the `int(...)` `ValueError`.  The returned value is
`abs(int(self._length))`. -/
def dbLenStep (h : Handle) : Except PyErr (Nat × Handle × Bool) :=
  if pyTruthy h.cached then .ok ((h.cached.getD 0).natAbs, h, false)
  else
    match infoFirst h.info "length" with
    | none => .error .notInitialized
    | some v =>
      match pyInt? v with
      | none => .error .valueError
      | some n => .ok (n.natAbs, { h with cached := some n }, true)

/-! ## `DB.__init__` (`db.py`) -/

/-- The successful result of `DB.__init__`: the sqlite connect string of the
backing file. -/
structure DBConn where
  file : String
  deriving DecidableEq, Repr

/-- The constructor `DB.__init__`: reject a location ending in `.db`; for a non-`sqlite:`
location require `os.path.isdir` (the `isDir` oracle; `os.path.abspath` is
absorbed into the oracle) and wrap it into a connect string; then resolve
the backing file as `<location>/dbsnp<version>.db` after stripping trailing
slashes.  Both rejections are `ValueError` (the spec's
`ConfigurationError`). -/
def dbInit (isDir : String → Bool) (location : String) (version : Nat) :
    Except PyErr DBConn :=
  if pyEndsWith location ".db" then .error .configError
  else if !pyStartsWith location "sqlite:" then
    if !isDir location then .error .configError
    else .ok ⟨pyRstripSlash ("sqlite:///" ++ location) ++ "/dbsnp" ++
      pyStr version ++ ".db"⟩
  else .ok ⟨pyRstripSlash location ++ "/dbsnp" ++ pyStr version ++ ".db"⟩
/-! ## `build_db` (`build.py`) -/

/-- One record accumulated by `build_db`, in the column order of its
`INSERT` statement `(name, chrom, start, end, strand)`; all five values are
the raw string fields of the line. -/
structure Record where
  name : String
  chrom : String
  start : String
  stop : String
  strand : String
  deriving DecidableEq, Repr

/-- What the loop body of `build_db` does with one line before touching the
batch state. -/
inductive LineStep where
  | skip
  | accept (r : Record)
  | malformed
  deriving DecidableEq, Repr

/-- The per-line head of the `build_db` loop: `continue` on
`line.startswith('track')`, otherwise unpack
`chrom, start, end, name, _, strand = line.rstrip().split('\t')` —
which requires exactly six fields and raises `ValueError` (the spec's
`ParseError`) on any other count. -/
def parseLine (line : String) : LineStep :=
  if pyStartsWith line "track" then .skip
  else
    match splitTab (pyRstrip line) with
    | [chrom, start, stop, name, _, strand] =>
      .accept ⟨name, chrom, start, stop, strand⟩
    | _ => .malformed

/-- The state of the `build_db` loop: the `dbSNP` table contents (in rowid
order), the in-memory `records` batch, the sizes of the intermediate
`executemany` bulk inserts issued so far, and the `rows` and `count`
counters. -/
structure LoopSt where
  table : List Record
  buffer : List Record
  flushes : List Nat
  rows : Nat
  count : Int
  deriving DecidableEq, Repr

/-- One iteration of the `build_db` loop on an accepted, skipped or
malformed line: append to `records`, then either decrement `count`
(`if count:`) or issue a bulk insert of the whole batch, reset
`count = commit_every - 1` and clear the batch; finally `rows += 1`. -/
def buildStep (commitEvery : Int) (st : LoopSt) (line : String) :
    Except PyErr LoopSt :=
  match parseLine line with
  | .skip => .ok st
  | .malformed => .error .parseError
  | .accept r =>
    let st1 : LoopSt := { st with buffer := st.buffer ++ [r] }
    let st2 : LoopSt :=
      if st1.count ≠ 0 then { st1 with count := st1.count - 1 }
      else
        { st1 with
          table := st1.table ++ st1.buffer
          flushes := st1.flushes ++ [st1.buffer.length]
          count := commitEvery - 1
          buffer := [] }
    .ok { st2 with rows := st2.rows + 1 }

/-- The `for line in fin` loop of `build_db`. -/
def buildLoop (commitEvery : Int) : List String → LoopSt → Except PyErr LoopSt
  | [], st => .ok st
  | l :: ls, st =>
    match buildStep commitEvery st l with
    | .error e => .error e
    | .ok st1 => buildLoop commitEvery ls st1

/-- The loop state `build_db` starts from: `rows = 0`,
`count = commit_every`, an empty batch, and whatever the `dbSNP` table
already contains. -/
def initLoopSt (table : List Record) (commitEvery : Int) : LoopSt :=
  ⟨table, [], [], 0, commitEvery⟩

/-- The records the loop accepts from the input, in order. -/
def acceptedRecords (lines : List String) : List Record :=
  lines.filterMap fun l =>
    match parseLine l with
    | .accept r => some r
    | _ => none

/-- The statement `INSERT OR REPLACE INTO dbInfo (name, value)`: on the unique `name` key,
the conflicting row is deleted and the new row appended. -/
def upsertInfo (info : List (String × String)) (k v : String) :
    List (String × String) :=
  info.filter (fun p => p.1 != k) ++ [(k, v)]

/-- Everything observable about a completed `build_db` run: the final
`dbSNP` table, the final `dbInfo` table, the sizes of the intermediate bulk
inserts, the size of the final flush, the row count printed by
`'Done, {} rows written'`, and the function's return value. -/
structure BuildResult where
  table : List Record
  info : List (String × String)
  flushes : List Nat
  finalFlush : Nat
  rowsPrinted : Nat
  retVal : Option Nat
  deriving DecidableEq, Repr

/-- The function `build_db` from `build.py`: run the loop over the lines, flush the
remaining batch, count the rows in storage with `SELECT COUNT(*)`, upsert
the `dbInfo` row `('length', str(count))`, print the `rows` counter — and
return `None` (the function has no `return` statement). -/
def build_db (table0 : List Record) (info0 : List (String × String))
    (lines : List String) (commitEvery : Int) : Except PyErr BuildResult :=
  match buildLoop commitEvery lines (initLoopSt table0 commitEvery) with
  | .error e => .error e
  | .ok st =>
    let table := st.table ++ st.buffer
    .ok
      { table := table
        info := upsertInfo info0 "length" (pyStr table.length)
        flushes := st.flushes
        finalFlush := st.buffer.length
        rowsPrinted := st.rows
        retVal := none }

/-- The invariant the `build_db` batch state maintains (for
`commit_every = B ≥ 1`, starting from `initLoopSt`): before the first flush
the batch length and the countdown add up to `B`; afterwards they add up to
`B - 1`, the first flush wrote `B + 1` records and every later one wrote
`B`. -/
def LoopInv (B : Nat) (st : LoopSt) : Prop :=
  0 ≤ st.count ∧
  ((st.flushes = [] ∧ st.buffer.length + st.count.toNat = B) ∨
    ((∃ k, st.flushes = (B + 1) :: List.replicate k B) ∧
      st.buffer.length + st.count.toNat + 1 = B))
/-! Round-trip facts for the decimal codec, needed to relate the metadata
value written by `build_db` to the value read back by `DB.__len__`. -/

theorem charDigitVal_digitChar {d : Nat} (h : d < 10) :
    charDigitVal (Nat.digitChar d) = d := by
  interval_cases d <;> rfl

theorem isDigit_digitChar {d : Nat} (h : d < 10) :
    (Nat.digitChar d).isDigit = true := by
  interval_cases d <;> rfl

theorem digitChar_props {d : Nat} (h : d < 10) :
    pyIsSpace (Nat.digitChar d) = false ∧ Nat.digitChar d ≠ '-' ∧
      Nat.digitChar d ≠ '+' := by
  interval_cases d <;> exact ⟨rfl, by decide, by decide⟩

theorem dropWhile_eq_self_of_all {p : Char → Bool} {l : List Char}
    (h : ∀ x ∈ l, p x = false) : l.dropWhile p = l := by
  cases l with
  | nil => rfl
  | cons a as => simp [List.dropWhile_cons, h a (List.mem_cons_self a as)]

theorem pyStripChars_eq_self_of_all {l : List Char}
    (h : ∀ x ∈ l, pyIsSpace x = false) : pyStripChars l = l := by
  unfold pyStripChars
  rw [dropWhile_eq_self_of_all h, dropWhile_eq_self_of_all, List.reverse_reverse]
  intro x hx
  exact h x (List.mem_reverse.mp hx)

theorem natDigitsFuel_eq_digits (fuel : Nat) :
    ∀ n : Nat, n ≤ fuel → natDigitsFuel fuel n = Nat.digits 10 n := by
  induction fuel with
  | zero =>
    intro n h
    have hn : n = 0 := Nat.le_zero.mp h
    subst hn
    simp [natDigitsFuel]
  | succ fuel ih =>
    intro n h
    unfold natDigitsFuel
    rcases Nat.eq_zero_or_pos n with rfl | hn
    · simp
    · rw [if_neg hn.ne']
      have hdiv : n / 10 < n := Nat.div_lt_self hn (by norm_num)
      rw [ih (n / 10) (by omega), Nat.digits_def' (by norm_num : 1 < 10) hn]

theorem natDecDigits_eq_digits (n : Nat) : natDecDigits n = Nat.digits 10 n :=
  natDigitsFuel_eq_digits n n le_rfl

theorem pyStr_pos (n : Nat) (hpos : 0 < n) :
    pyStr n = ⟨((Nat.digits 10 n).map Nat.digitChar).reverse⟩ := by
  unfold pyStr
  rw [if_neg hpos.ne', natDecDigits_eq_digits]

theorem pyInt?_pyStr (n : Nat) : pyInt? (pyStr n) = some (n : Int) := by
  rcases Nat.eq_zero_or_pos n with rfl | hpos
  · rfl
  · have hne : Nat.digits 10 n ≠ [] :=
      Nat.digits_ne_nil_iff_ne_zero.mpr hpos.ne'
    have hlt : ∀ d ∈ Nat.digits 10 n, d < 10 := fun d hd =>
      Nat.digits_lt_base (by norm_num) hd
    have hchars : ∀ x ∈ ((Nat.digits 10 n).map Nat.digitChar).reverse,
        pyIsSpace x = false := by
      intro x hx
      rcases List.mem_map.mp (List.mem_reverse.mp hx) with ⟨d, hd, rfl⟩
      exact (digitChar_props (hlt d hd)).1
    rw [pyStr_pos n hpos]
    show pyInt? ⟨((Nat.digits 10 n).map Nat.digitChar).reverse⟩ = some (n : Int)
    unfold pyInt?
    have hdata : (String.mk (((Nat.digits 10 n).map Nat.digitChar).reverse)).data
        = ((Nat.digits 10 n).map Nat.digitChar).reverse := rfl
    rw [hdata, pyStripChars_eq_self_of_all hchars]
    -- the reversed digit-character list is nonempty; name its head and tail
    cases hrev : ((Nat.digits 10 n).map Nat.digitChar).reverse with
    | nil =>
      exact absurd (by simpa using List.reverse_eq_nil_iff.mp hrev) hne
    | cons c ds =>
      have hcmem : c ∈ ((Nat.digits 10 n).map Nat.digitChar).reverse := by
        rw [hrev]; exact List.mem_cons_self c ds
      rcases List.mem_map.mp (List.mem_reverse.mp hcmem) with ⟨d, hd, hcd⟩
      have hprops := digitChar_props (hlt d hd)
      dsimp only
      rw [if_neg (hcd ▸ hprops.2.1), if_neg (hcd ▸ hprops.2.2)]
      have hall : ∀ x ∈ (c :: ds), x.isDigit = true := by
        intro x hx
        have : x ∈ ((Nat.digits 10 n).map Nat.digitChar).reverse := hrev ▸ hx
        rcases List.mem_map.mp (List.mem_reverse.mp this) with ⟨e, he, rfl⟩
        exact isDigit_digitChar (hlt e he)
      have hval : (((c :: ds).map charDigitVal).reverse) = Nat.digits 10 n := by
        rw [← hrev, ← List.map_reverse, List.reverse_reverse, List.map_map]
        calc List.map (charDigitVal ∘ Nat.digitChar) (Nat.digits 10 n)
            = List.map id (Nat.digits 10 n) :=
              List.map_congr_left (fun d hd => charDigitVal_digitChar (hlt d hd))
          _ = Nat.digits 10 n := List.map_id _
      have hcond : (!(c :: ds).isEmpty && (c :: ds).all Char.isDigit) = true := by
        simp only [List.isEmpty_cons, Bool.not_false, Bool.true_and]
        exact List.all_eq_true.mpr hall
      unfold natOfDigitChars?
      rw [hcond]
      simp only [if_true]
      rw [hval, Nat.ofDigits_digits]
      rfl

/-! ## Facts about the `build_db` loop -/

theorem acceptedRecords_cons_skip {l : String} (ls : List String)
    (h : parseLine l = .skip) :
    acceptedRecords (l :: ls) = acceptedRecords ls := by
  unfold acceptedRecords
  rw [List.filterMap_cons]
  simp [h]

theorem acceptedRecords_cons_accept {l : String} (ls : List String) {r : Record}
    (h : parseLine l = .accept r) :
    acceptedRecords (l :: ls) = r :: acceptedRecords ls := by
  unfold acceptedRecords
  rw [List.filterMap_cons]
  simp [h]

theorem buildStep_skip {B : Int} {st : LoopSt} {line : String}
    (h : parseLine line = .skip) : buildStep B st line = .ok st := by
  unfold buildStep
  rw [h]

theorem buildStep_malformed {B : Int} {st : LoopSt} {line : String}
    (h : parseLine line = .malformed) :
    buildStep B st line = .error .parseError := by
  unfold buildStep
  rw [h]

theorem buildStep_accept_pos {B : Int} {st : LoopSt} {line : String} {r : Record}
    (h : parseLine line = .accept r) (hc : st.count ≠ 0) :
    buildStep B st line =
      .ok ⟨st.table, st.buffer ++ [r], st.flushes, st.rows + 1, st.count - 1⟩ := by
  unfold buildStep
  rw [h]
  dsimp only
  rw [if_pos hc]

theorem buildStep_accept_zero {B : Int} {st : LoopSt} {line : String} {r : Record}
    (h : parseLine line = .accept r) (hc : st.count = 0) :
    buildStep B st line =
      .ok ⟨st.table ++ (st.buffer ++ [r]), [],
        st.flushes ++ [(st.buffer ++ [r]).length], st.rows + 1, B - 1⟩ := by
  unfold buildStep
  rw [h]
  dsimp only
  rw [if_neg (not_not_intro hc)]

theorem buildLoop_cons (B : Int) (l : String) (ls : List String) (st : LoopSt) :
    buildLoop B (l :: ls) st =
      match buildStep B st l with
      | .error e => .error e
      | .ok st1 => buildLoop B ls st1 := rfl

theorem buildLoop_trace {B : Int} :
    ∀ (lines : List String) (st st1 : LoopSt),
      buildLoop B lines st = .ok st1 →
      st1.table ++ st1.buffer = st.table ++ st.buffer ++ acceptedRecords lines ∧
      st1.rows = st.rows + (acceptedRecords lines).length := by
  intro lines
  induction lines with
  | nil =>
    intro st st1 h
    cases h
    simp [acceptedRecords]
  | cons l ls ih =>
    intro st st1 h
    rw [buildLoop_cons] at h
    cases hp : parseLine l with
    | skip =>
      rw [buildStep_skip hp] at h
      dsimp only at h
      rw [acceptedRecords_cons_skip ls hp]
      exact ih st st1 h
    | malformed =>
      rw [buildStep_malformed hp] at h
      exact absurd h (by simp)
    | accept r =>
      rw [acceptedRecords_cons_accept ls hp]
      by_cases hc : st.count ≠ 0
      · rw [buildStep_accept_pos hp hc] at h
        dsimp only at h
        obtain ⟨h1, h2⟩ := ih _ _ h
        dsimp only at h1 h2
        constructor
        · rw [h1]
          simp
        · rw [h2]
          simp
          omega
      · have hc0 : st.count = 0 := not_not.mp hc
        rw [buildStep_accept_zero hp hc0] at h
        dsimp only at h
        obtain ⟨h1, h2⟩ := ih _ _ h
        dsimp only at h1 h2
        constructor
        · rw [h1]
          simp
        · rw [h2]
          simp
          omega

theorem loopInv_init (table : List Record) (B : Nat) :
    LoopInv B (initLoopSt table (B : Int)) := by
  refine ⟨by simp [initLoopSt], Or.inl ⟨rfl, by simp [initLoopSt]⟩⟩

theorem buildLoop_inv {B : Nat} (hB : 1 ≤ B) :
    ∀ (lines : List String) (st st1 : LoopSt), LoopInv B st →
      buildLoop (B : Int) lines st = .ok st1 → LoopInv B st1 := by
  intro lines
  induction lines with
  | nil =>
    intro st st1 hi h
    cases h
    exact hi
  | cons l ls ih =>
    intro st st1 hi h
    rw [buildLoop_cons] at h
    cases hp : parseLine l with
    | skip =>
      rw [buildStep_skip hp] at h
      dsimp only at h
      exact ih _ _ hi h
    | malformed =>
      rw [buildStep_malformed hp] at h
      exact absurd h (by simp)
    | accept r =>
      obtain ⟨hnn, hcase⟩ := hi
      by_cases hc : st.count ≠ 0
      · rw [buildStep_accept_pos hp hc] at h
        dsimp only at h
        refine ih _ _ ⟨by dsimp only; omega, ?_⟩ h
        rcases hcase with ⟨hf, hlen⟩ | ⟨⟨k, hf⟩, hlen⟩
        · left
          refine ⟨hf, ?_⟩
          dsimp only
          rw [List.length_append]
          simp only [List.length_singleton]
          omega
        · right
          refine ⟨⟨k, hf⟩, ?_⟩
          dsimp only
          rw [List.length_append]
          simp only [List.length_singleton]
          omega
      · have hc0 : st.count = 0 := not_not.mp hc
        rw [buildStep_accept_zero hp hc0] at h
        dsimp only at h
        have hbuf : st.buffer.length + 1 = (st.buffer ++ [r]).length := by
          rw [List.length_append]
          simp only [List.length_singleton]
        refine ih _ _ ⟨by dsimp only; omega, Or.inr ⟨?_, ?_⟩⟩ h
        · rcases hcase with ⟨hf, hlen⟩ | ⟨⟨k, hf⟩, hlen⟩
          · refine ⟨0, ?_⟩
            dsimp only
            rw [hf, List.nil_append]
            have : (st.buffer ++ [r]).length = B + 1 := by omega
            rw [this]
            rfl
          · refine ⟨k + 1, ?_⟩
            dsimp only
            rw [hf, List.replicate_succ']
            have : (st.buffer ++ [r]).length = B := by omega
            rw [this, List.cons_append]
        · dsimp only
          simp only [List.length_nil]
          omega
theorem build_db_ok {table0 : List Record} {info0 : List (String × String)}
    {lines : List String} {ce : Int} {res : BuildResult}
    (h : build_db table0 info0 lines ce = .ok res) :
    ∃ st, buildLoop ce lines (initLoopSt table0 ce) = .ok st ∧
      res = ⟨st.table ++ st.buffer,
        upsertInfo info0 "length" (pyStr (st.table ++ st.buffer).length),
        st.flushes, st.buffer.length, st.rows, none⟩ := by
  unfold build_db at h
  cases hl : buildLoop ce lines (initLoopSt table0 ce) with
  | error e =>
    rw [hl] at h
    exact absurd h (by simp)
  | ok st =>
    rw [hl] at h
    dsimp only at h
    cases h
    exact ⟨st, rfl, rfl⟩

theorem infoFirst_upsertInfo (info : List (String × String)) (k v : String) :
    infoFirst (upsertInfo info k v) k = some v := by
  unfold infoFirst upsertInfo
  rw [List.find?_append]
  have h1 : (info.filter fun p => p.1 != k).find? (fun p => p.1 == k) = none := by
    rw [List.find?_eq_none]
    intro p hp
    have hmem := List.of_mem_filter hp
    simp only [bne_iff_ne, ne_eq] at hmem
    simp [hmem]
  rw [h1]
  simp

/-- C1: after a `build_db` run that completes with no parse error, the
`length` metadata row holds exactly the number of `Variant` rows present in
storage (counted by querying storage after the final flush, so pre-existing
rows are included, unlike the line counter), it is written as the final step,
and a fresh handle's `__len__` subsequently returns that count; on an
initially empty table this count equals the number of rows accepted from the
input. -/
theorem build_db_length_metadata (table0 : List Record)
    (info0 : List (String × String)) (lines : List String) (ce : Int)
    (res : BuildResult) (h : build_db table0 info0 lines ce = .ok res) :
    res.table = table0 ++ acceptedRecords lines ∧
    res.info = upsertInfo info0 "length" (pyStr res.table.length) ∧
    infoFirst res.info "length" = some (pyStr res.table.length) ∧
    dbLenStep ⟨res.info, none⟩ =
      .ok (res.table.length, ⟨res.info, some (res.table.length : Int)⟩, true) ∧
    (table0 = [] →
      res.table.length = (acceptedRecords lines).length ∧
      res.rowsPrinted = res.table.length) := by
  obtain ⟨st, hl, hres⟩ := build_db_ok h
  obtain ⟨ht, hr⟩ := buildLoop_trace lines _ st hl
  simp only [initLoopSt, List.append_nil] at ht hr
  subst hres
  dsimp only
  refine ⟨ht, rfl, infoFirst_upsertInfo _ _ _, ?_, ?_⟩
  · unfold dbLenStep
    have htr : pyTruthy (none : Option Int) = false := rfl
    rw [htr]
    simp only [Bool.false_eq_true, if_false]
    rw [infoFirst_upsertInfo]
    dsimp only
    rw [pyInt?_pyStr]
    dsimp only
    rw [Int.natAbs_ofNat]
  · intro h0
    subst h0
    rw [ht, hr]
    simp

/-- Witness for C1: a concrete one-line ingestion into an empty store. -/
theorem build_db_length_metadata_witness :
    infoFirst [("length", "1")] "length" = some (pyStr 1) ∧
    dbLenStep ⟨[("length", "1")], none⟩ =
      .ok (1, ⟨[("length", "1")], some 1⟩, true) := by
  have h := build_db_length_metadata [] [] ["chr7\t1\t2\trs1\t0\t+"] 7
    ⟨[⟨"rs1", "chr7", "1", "2", "+"⟩], [("length", "1")], [], 1, 1, none⟩ rfl
  exact ⟨h.2.2.1, h.2.2.2.1⟩

/-- C5 (amended): `build_db` has no `return` statement, so it returns `None`;
the total number of `Variant` rows written during the run is printed
(`'Done, {} rows written'`), not returned. -/
theorem build_db_returns_none (table0 : List Record)
    (info0 : List (String × String)) (lines : List String) (ce : Int)
    (res : BuildResult) (h : build_db table0 info0 lines ce = .ok res) :
    res.retVal = none ∧
    res.rowsPrinted = (acceptedRecords lines).length ∧
    res.table = table0 ++ acceptedRecords lines := by
  obtain ⟨st, hl, hres⟩ := build_db_ok h
  obtain ⟨ht, hr⟩ := buildLoop_trace lines _ st hl
  simp only [initLoopSt, List.append_nil] at ht hr
  subst hres
  dsimp only
  exact ⟨rfl, by omega, ht⟩

/-- Counterexample for C5: a run that writes two rows returns `None`,
not the row count 2 that it prints. -/
theorem build_db_returns_none_cex :
    (build_db [] [] ["chr1\t1\t2\trs1\t0\t+", "chr1\t3\t4\trs2\t0\t+"] 9).map
      (fun r => (r.retVal, r.rowsPrinted)) = .ok (none, 2) := rfl

/-- Witness for C5 at a concrete two-line ingestion. -/
theorem build_db_returns_none_witness :
    (none : Option Nat) = none ∧
    (2 : Nat) =
      (acceptedRecords ["chr1\t1\t2\trs1\t0\t+", "chr1\t3\t4\trs2\t0\t+"]).length := by
  have h := build_db_returns_none [] []
    ["chr1\t1\t2\trs1\t0\t+", "chr1\t3\t4\trs2\t0\t+"] 9
    ⟨[⟨"rs1", "chr1", "1", "2", "+"⟩, ⟨"rs2", "chr1", "3", "4", "+"⟩],
      [("length", "2")], [], 2, 2, none⟩ rfl
  exact ⟨h.1, h.2.1⟩
/-- C3 (amended): for batch size `B ≥ 1`, the first intermediate bulk insert
is issued when the in-memory batch reaches `B + 1` records and writes those
`B + 1` records (an off-by-one in the countdown); every later intermediate
insert writes exactly `B` records; each insert clears the buffer; after the
stream is exhausted the remaining batch (at most `B` records) is flushed
once, so every accepted record is written exactly once; at loop boundaries
the buffer never holds more than `B` records (it reaches `B + 1` only at the
moment the first flush is issued). -/
theorem build_db_batching (table0 : List Record)
    (info0 : List (String × String)) (lines : List String) (B : Nat)
    (hB : 1 ≤ B) (res : BuildResult)
    (h : build_db table0 info0 lines (B : Int) = .ok res) :
    (res.flushes = [] ∨ ∃ k, res.flushes = (B + 1) :: List.replicate k B) ∧
    res.finalFlush ≤ B ∧
    res.table = table0 ++ acceptedRecords lines ∧
    (∀ (pre : List String) (st : LoopSt),
      buildLoop (B : Int) pre (initLoopSt table0 (B : Int)) = .ok st →
      st.buffer.length ≤ B) := by
  obtain ⟨st, hl, hres⟩ := build_db_ok h
  obtain ⟨ht, hr⟩ := buildLoop_trace lines _ st hl
  simp only [initLoopSt, List.append_nil] at ht
  have hinv := buildLoop_inv hB lines _ st (loopInv_init table0 B) hl
  subst hres
  dsimp only
  obtain ⟨hnn, hcase⟩ := hinv
  refine ⟨?_, ?_, ht, ?_⟩
  · rcases hcase with ⟨hf, _⟩ | ⟨hk, _⟩
    · exact Or.inl hf
    · exact Or.inr hk
  · rcases hcase with ⟨_, hlen⟩ | ⟨_, hlen⟩ <;> omega
  · intro pre st2 hpre
    obtain ⟨hnn2, hcase2⟩ :=
      buildLoop_inv hB pre _ st2 (loopInv_init table0 B) hpre
    rcases hcase2 with ⟨_, hlen⟩ | ⟨_, hlen⟩ <;> omega

/-- Counterexample for C3: with batch size 1, the single intermediate bulk
insert of this run writes 2 records, so an intermediate insert is not issued
when the batch reaches batchSize, does not write exactly batchSize records,
and the in-memory buffer exceeded batchSize. -/
theorem build_db_batching_cex :
    (build_db [] [] ["chr1\t1\t2\trs1\t0\t+", "chr1\t3\t4\trs2\t0\t+"] 1).map
      (fun r => r.flushes) = .ok [2] := rfl

/-- Witness for C3: batch size 1 on a concrete two-line input. -/
theorem build_db_batching_witness :
    (([2] : List Nat) = [] ∨
      ∃ k, ([2] : List Nat) = (1 + 1) :: List.replicate k 1) ∧
    (0 : Nat) ≤ 1 := by
  have h := build_db_batching [] []
    ["chr1\t1\t2\trs1\t0\t+", "chr1\t3\t4\trs2\t0\t+"] 1 (le_refl 1)
    ⟨[⟨"rs1", "chr1", "1", "2", "+"⟩, ⟨"rs2", "chr1", "3", "4", "+"⟩],
      [("length", "2")], [2], 0, 2, none⟩ rfl
  exact ⟨h.1, h.2.1⟩

theorem parseLine_not_track {line : String}
    (hf : pyStartsWith line "track" = false) :
    parseLine line =
      match splitTab (pyRstrip line) with
      | [chrom, start, stop, name, _, strand] =>
        .accept ⟨name, chrom, start, stop, strand⟩
      | _ => .malformed := by
  unfold parseLine
  rw [hf]
  simp

/-- C4 (amended): a line is skipped iff it starts with the character prefix
`track` (so `tracker...` is also skipped, not only lines whose first
tab-separated field is exactly `track`); a non-skipped line is accepted iff
it has exactly six tab-separated fields, consumed positionally as
`(chrom, start, end, name, ignored, strand)`; any other field count (fewer
or more than six) raises a fatal `ParseError` that aborts the run. -/
theorem parseLine_spec (line : String) :
    (parseLine line = .skip ↔ pyStartsWith line "track" = true) ∧
    (∀ chrom start stop name ph strand,
      pyStartsWith line "track" = false →
      splitTab (pyRstrip line) = [chrom, start, stop, name, ph, strand] →
      parseLine line = .accept ⟨name, chrom, start, stop, strand⟩) ∧
    (pyStartsWith line "track" = false →
      (splitTab (pyRstrip line)).length ≠ 6 →
      ∀ (B : Int) (ls : List String) (st : LoopSt),
        buildLoop B (line :: ls) st = .error .parseError) := by
  refine ⟨⟨?_, ?_⟩, ?_, ?_⟩
  · intro h
    cases hval : pyStartsWith line "track" with
    | true => rfl
    | false =>
      rw [parseLine_not_track hval] at h
      split at h
      · exact absurd h (by simp)
      · exact absurd h (by simp)
  · intro h
    unfold parseLine
    rw [h]
    rfl
  · intro chrom start stop name ph strand hf hsp
    rw [parseLine_not_track hf, hsp]
  · intro hf hne B ls st
    have hm : parseLine line = .malformed := by
      rw [parseLine_not_track hf]
      rcases hsp : splitTab (pyRstrip line) with
        _ | ⟨a, _ | ⟨b, _ | ⟨c, _ | ⟨d, _ | ⟨e, _ | ⟨f, _ | ⟨g, rest⟩⟩⟩⟩⟩⟩⟩
      · rfl
      · rfl
      · rfl
      · rfl
      · rfl
      · rfl
      · exact absurd (by rw [hsp]; rfl) hne
      · rfl
    rw [buildLoop_cons, buildStep_malformed hm]

/-- Counterexample for C4: `tracker...` has first field `tracker`, not
`track`, yet is skipped; a seven-field line has at least six fields yet
raises the fatal `ParseError` instead of being accepted. -/
theorem parseLine_cex :
    parseLine "tracker\ta\tb\tc\td\te" = .skip ∧
    parseLine "a\tb\tc\td\te\tf\tg" = .malformed ∧
    buildLoop 5 ["a\tb\tc\td\te\tf\tg"] (initLoopSt [] 5) =
      .error .parseError := ⟨rfl, rfl, rfl⟩

/-- Witness for C4 at concrete lines. -/
theorem parseLine_spec_witness :
    parseLine "track name=snp" = .skip ∧
    parseLine "chr7\t1\t2\trs1\t0\t+" = .accept ⟨"rs1", "chr7", "1", "2", "+"⟩ ∧
    buildLoop 5 ["a\tb"] (initLoopSt [] 5) = .error .parseError := by
  refine ⟨(parseLine_spec "track name=snp").1.mpr rfl, ?_, ?_⟩
  · exact (parseLine_spec "chr7\t1\t2\trs1\t0\t+").2.1 "chr7" "1" "2" "rs1" "0" "+"
      rfl rfl
  · exact (parseLine_spec "a\tb").2.2 rfl (by decide) 5 [] (initLoopSt [] 5)
/-- C6: the rank chain the spec asserts for the comparator used by
`sorted(..., key=chrom_key)`. Under Python 3 the first three links hold
(integer ranks 7 < 99 < 100 < 101), but comparing `rank('chrM')` (the
integer 101) with `rank('chrUn')` (the string `'Un'`) raises `TypeError`
(`none`) instead of placing the string fallback after all numeric ranks. -/
theorem chrom_key_chain_breaks :
    rankLtB? (chrom_key "chr7") (chrom_key "chrX") = some true ∧
    rankLtB? (chrom_key "chrX") (chrom_key "chrY") = some true ∧
    rankLtB? (chrom_key "chrY") (chrom_key "chrM") = some true ∧
    rankLtB? (chrom_key "chrM") (chrom_key "chrUn") = none :=
  ⟨rfl, rfl, rfl, rfl⟩

/-- C9 (amended): `__len__` raises `NotInitializedError` when no `length`
metadata row exists, returns the absolute value of the stored integer, and
caches the loaded value; a later call skips the storage query only when the
cached value is nonzero — a stored value of `0` defeats the
`if not self._length` cache test and is re-loaded on every call, so the
"at most one load per handle instance" behaviour holds only for nonzero
stored lengths. -/
theorem dbLenStep_spec (h : Handle) :
    (pyTruthy h.cached = true →
      dbLenStep h = .ok ((h.cached.getD 0).natAbs, h, false)) ∧
    (pyTruthy h.cached = false → infoFirst h.info "length" = none →
      dbLenStep h = .error .notInitialized) ∧
    (∀ v n, pyTruthy h.cached = false →
      infoFirst h.info "length" = some v → pyInt? v = some n →
      dbLenStep h = .ok (n.natAbs, ⟨h.info, some n⟩, true) ∧
      (n ≠ 0 →
        dbLenStep ⟨h.info, some n⟩ = .ok (n.natAbs, ⟨h.info, some n⟩, false))) := by
  refine ⟨?_, ?_, ?_⟩
  · intro h1
    unfold dbLenStep
    rw [h1]
    rfl
  · intro h1 h2
    unfold dbLenStep
    rw [h1, h2]
    rfl
  · intro v n h1 h2 h3
    constructor
    · unfold dbLenStep
      rw [h1, h2]
      dsimp only
      rw [h3]
      rfl
    · intro hn
      have htr : pyTruthy (some n) = true := by
        simp [pyTruthy, hn]
      unfold dbLenStep
      rw [htr]
      rfl

/-- Counterexample for C9: with the stored length value `'0'`, the second
call still queries storage (third component `true` in both calls), so the
metadata value is not loaded at most once per handle instance. -/
theorem dbLenStep_cex :
    dbLenStep ⟨[("length", "0")], none⟩ =
      .ok (0, ⟨[("length", "0")], some 0⟩, true) ∧
    dbLenStep ⟨[("length", "0")], some 0⟩ =
      .ok (0, ⟨[("length", "0")], some 0⟩, true) := ⟨rfl, rfl⟩

/-- Witness for C9: a negative stored length is returned as its absolute
value, a nonzero cached value suppresses the second storage query, and a
missing row fails. -/
theorem dbLenStep_spec_witness :
    dbLenStep ⟨[("length", "-5")], none⟩ =
      .ok (5, ⟨[("length", "-5")], some (-5)⟩, true) ∧
    dbLenStep ⟨[("length", "-5")], some (-5)⟩ =
      .ok (5, ⟨[("length", "-5")], some (-5)⟩, false) ∧
    dbLenStep ⟨[], none⟩ = .error .notInitialized := by
  have h1 := (dbLenStep_spec ⟨[("length", "-5")], none⟩).2.2 "-5" (-5) rfl rfl rfl
  exact ⟨h1.1, h1.2 (by decide), (dbLenStep_spec ⟨[], none⟩).2.1 rfl rfl⟩

/-- C10 (amended): construction first rejects any location ending in `.db`,
including sqlite connect strings; a remaining location not starting with
`sqlite:` must pass the directory-existence check (else `ValueError`),
while a location starting with `sqlite:` skips the directory check
entirely — so construction against a nonexistent local directory fails, and
construction with a sqlite connect string succeeds iff it does not end in
`.db`, regardless of the filesystem. -/
theorem dbInit_spec (isDir : String → Bool) (location : String)
    (version : Nat) :
    (pyEndsWith location ".db" = true →
      dbInit isDir location version = .error .configError) ∧
    (pyEndsWith location ".db" = false →
      pyStartsWith location "sqlite:" = false →
      ((isDir location = false →
        dbInit isDir location version = .error .configError) ∧
       (isDir location = true →
        dbInit isDir location version =
          .ok ⟨pyRstripSlash ("sqlite:///" ++ location) ++ "/dbsnp" ++
            pyStr version ++ ".db"⟩))) ∧
    (pyEndsWith location ".db" = false →
      pyStartsWith location "sqlite:" = true →
      dbInit isDir location version =
        .ok ⟨pyRstripSlash location ++ "/dbsnp" ++ pyStr version ++ ".db"⟩) := by
  refine ⟨?_, ?_, ?_⟩
  · intro h1
    unfold dbInit
    rw [h1]
    rfl
  · intro h1 h2
    constructor
    · intro h3
      unfold dbInit
      rw [h1, h2, h3]
      rfl
    · intro h3
      unfold dbInit
      rw [h1, h2, h3]
      rfl
  · intro h1 h2
    unfold dbInit
    rw [h1, h2]
    rfl

/-- Counterexample for C10: a sqlite connect string ending in `.db` is
rejected at construction (the `.db` check runs before the `sqlite:` branch),
so construction with an arbitrary sqlite connect string does not succeed. -/
theorem dbInit_cex :
    dbInit (fun _ => true) "sqlite:///data/snp.db" 150 = .error .configError ∧
    pyStartsWith "sqlite:///data/snp.db" "sqlite:" = true := ⟨rfl, rfl⟩

/-- Witness for C10 at concrete locations: a nonexistent local directory
fails, a sqlite connect string without the `.db` suffix succeeds with no
directory check, and an existing local directory succeeds. -/
theorem dbInit_spec_witness :
    dbInit (fun _ => false) "/no/such/dir" 150 = .error .configError ∧
    dbInit (fun _ => false) "sqlite:///remote/db/" 149 =
      .ok ⟨"sqlite:///remote/db/dbsnp149.db"⟩ ∧
    dbInit (fun _ => true) "/data" 150 =
      .ok ⟨"sqlite:////data/dbsnp150.db"⟩ := by
  refine ⟨((dbInit_spec (fun _ => false) "/no/such/dir" 150).2.1 rfl rfl).1 rfl,
    ?_, ?_⟩
  · exact (dbInit_spec (fun _ => false) "sqlite:///remote/db/" 149).2.2 rfl rfl
  · exact ((dbInit_spec (fun _ => true) "/data" 150).2.1 rfl rfl).2 rfl
/-- C8: `lookup_rsids` fails with `InvalidArgumentError` (the assertion
failure) iff some supplied id is not a string beginning with `rs`; a single
string argument is treated as a singleton list; on valid input it returns
exactly the rows whose `name` is among the ids, so ids with no matching row
contribute nothing and never cause an error. -/
theorem lookup_rsids_spec (db : List Row) (arg : RsArg) :
    ((∀ v ∈ rsArgVals arg, rsidOk v = true) →
      lookup_rsids db arg =
        .ok (db.filter fun r => (rsArgVals arg).contains (PyVal.str r.name)) ∧
      ∀ row, row ∈ (db.filter fun r =>
          (rsArgVals arg).contains (PyVal.str r.name)) ↔
        row ∈ db ∧ PyVal.str row.name ∈ rsArgVals arg) ∧
    ((∃ v ∈ rsArgVals arg, rsidOk v = false) →
      lookup_rsids db arg = .error .invalidArg) ∧
    (∀ s, lookup_rsids db (.one s) = lookup_rsids db (.many [.str s])) := by
  refine ⟨?_, ?_, fun s => rfl⟩
  · intro h
    have hall : (rsArgVals arg).all rsidOk = true := List.all_eq_true.mpr h
    constructor
    · unfold lookup_rsids
      dsimp only
      rw [hall]
      rfl
    · intro row
      rw [List.mem_filter]
      constructor
      · rintro ⟨hdb, hc⟩
        exact ⟨hdb, List.elem_iff.mp hc⟩
      · rintro ⟨hdb, hc⟩
        exact ⟨hdb, List.elem_iff.mpr hc⟩
  · rintro ⟨v, hv, hfalse⟩
    have hall : (rsArgVals arg).all rsidOk = false := by
      rw [List.all_eq_false]
      exact ⟨v, hv, by simp [hfalse]⟩
    unfold lookup_rsids
    dsimp only
    rw [hall]
    rfl

/-- Witness for C8: a valid two-id query where one id has no matching row
returns just the match and no error, while an id without the `rs` prefix
and a non-string id each fail the assertion. -/
theorem lookup_rsids_spec_witness :
    lookup_rsids [⟨1, "rs1", "chr1", 5, 6, "+"⟩]
        (.many [.str "rs1", .str "rs9"]) =
      .ok [⟨1, "rs1", "chr1", 5, 6, "+"⟩] ∧
    lookup_rsids [⟨1, "rs1", "chr1", 5, 6, "+"⟩] (.many [.str "xx"]) =
      .error .invalidArg ∧
    lookup_rsids [⟨1, "rs1", "chr1", 5, 6, "+"⟩] (.many [.int 7]) =
      .error .invalidArg := by
  refine ⟨?_, ?_, ?_⟩
  · exact ((lookup_rsids_spec [⟨1, "rs1", "chr1", 5, 6, "+"⟩]
      (.many [.str "rs1", .str "rs9"])).1 (by decide)).1
  · exact (lookup_rsids_spec [⟨1, "rs1", "chr1", 5, 6, "+"⟩]
      (.many [.str "xx"])).2.1 ⟨.str "xx", by decide, rfl⟩
  · exact (lookup_rsids_spec [⟨1, "rs1", "chr1", 5, 6, "+"⟩]
      (.many [.int 7])).2.1 ⟨.int 7, by decide, rfl⟩

/-- C7: on a populated store whose primary keys are exactly `1..n`
(`n = length()`), `random(1)` returns exactly one row for any in-range
draw, and for `count > 1`, `random(count)` filters by membership in the
`count` drawn keys and returns at most `count` rows (duplicate draws are
not de-duplicated, so fewer distinct rows are possible). -/
theorem dbRandom_spec (db : List Row) (n : Nat)
    (hids : (db.map Row.id).Perm (List.range' 1 n)) :
    (∀ d, 1 ≤ d → d ≤ n → (dbRandom db [d] 1).length = 1) ∧
    (∀ (count : Int) (draws : List Nat), 1 < count →
      draws.length = count.toNat →
      (dbRandom db draws count).length ≤ count.toNat) := by
  constructor
  · intro d h1 h2
    unfold dbRandom
    rw [if_neg (by decide)]
    rw [← List.countP_eq_length_filter]
    have hmap : db.countP (fun r => r.id == List.headD [d] 0) =
        (db.map Row.id).countP (fun i => i == List.headD [d] 0) := by
      rw [List.countP_map]
      rfl
    rw [hmap, hids.countP_eq]
    have hmem : d ∈ List.range' 1 n := by
      rw [List.mem_range']
      exact ⟨d - 1, by omega, by omega⟩
    have hnd : (List.range' 1 n).Nodup := List.nodup_range' 1 n
    exact List.count_eq_one_of_mem hnd hmem
  · intro count draws hc hlen
    unfold dbRandom
    rw [if_pos hc]
    rw [← List.countP_eq_length_filter]
    have hmap : db.countP (fun r => draws.contains r.id) =
        (db.map Row.id).countP (fun i => draws.contains i) := by
      rw [List.countP_map]
      rfl
    rw [hmap, hids.countP_eq, List.countP_eq_length_filter]
    have hnd : ((List.range' 1 n).filter (fun i => draws.contains i)).Nodup :=
      List.Nodup.filter _ (List.nodup_range' 1 n)
    have hsub : ((List.range' 1 n).filter (fun i => draws.contains i)).toFinset ⊆
        draws.toFinset := by
      intro x hx
      rw [List.mem_toFinset] at hx ⊢
      have := List.of_mem_filter hx
      exact List.elem_iff.mp this
    calc ((List.range' 1 n).filter (fun i => draws.contains i)).length
        = ((List.range' 1 n).filter (fun i => draws.contains i)).toFinset.card :=
          (List.toFinset_card_of_nodup hnd).symm
      _ ≤ draws.toFinset.card := Finset.card_le_card hsub
      _ ≤ draws.length := draws.toFinset_card_le
      _ = count.toNat := hlen

/-- Witness for C7: a two-row store with keys 1 and 2; one draw returns one
row, and three draws with a duplicate return at most three rows. -/
theorem dbRandom_spec_witness :
    (dbRandom [⟨1, "rs1", "chr1", 5, 6, "+"⟩, ⟨2, "rs2", "chr1", 7, 8, "+"⟩]
      [2] 1).length = 1 ∧
    (dbRandom [⟨1, "rs1", "chr1", 5, 6, "+"⟩, ⟨2, "rs2", "chr1", 7, 8, "+"⟩]
      [2, 2, 1] 3).length ≤ (3 : Int).toNat := by
  have h := dbRandom_spec
    [⟨1, "rs1", "chr1", 5, 6, "+"⟩, ⟨2, "rs2", "chr1", 7, 8, "+"⟩] 2 (by decide)
  exact ⟨h.1 2 (by decide) (by decide), h.2 3 [2, 2, 1] (by decide) rfl⟩
theorem lookup_of_nodup :
    ∀ (locs : List (String × Int × Int)) (c : String) (w : Int × Int),
      (locs.map Prod.fst).Nodup → (c, w) ∈ locs → locs.lookup c = some w := by
  intro locs
  induction locs with
  | nil =>
    intro c w _ h
    exact absurd h (List.not_mem_nil _)
  | cons p ps ih =>
    intro c w hnd hmem
    obtain ⟨k, v⟩ := p
    simp only [List.map_cons, List.nodup_cons] at hnd
    rcases List.mem_cons.mp hmem with heq | htail
    · cases heq
      simp [List.lookup]
    · have hc : c ∈ ps.map Prod.fst := List.mem_map.mpr ⟨(c, w), htail, rfl⟩
      have hne : (c == k) = false := by
        rw [beq_eq_false_iff_ne]
        intro hck
        subst hck
        exact hnd.1 hc
      simp only [List.lookup, hne]
      exact ih c w hnd.2 htail

/-- C2 (amended): for every dict whose chromosome labels all rank on the
same side of `chrom_key` (all integer-ranked, or all string-ranked — the
mutually comparable case), `between` returns exactly the variants `v` with
`v.chrom` equal to a queried chromosome and `start ≤ v.start ≤ end`
(endpoints inclusive), concatenated over chromosomes in ascending rank
order, and it raises `InvalidArgumentError` (`ValueError`) when the
argument is not a mapping.  (When the labels mix the two rank kinds, the
Python 3 sort raises `TypeError` instead — see the counterexample.) -/
theorem between_spec (db : List Row) (locs : List (String × Int × Int))
    (hnd : (locs.map Prod.fst).Nodup)
    (hc : ranksComparable (locs.map Prod.fst) = true) :
    (∃ ks, ks.Perm (locs.map Prod.fst) ∧
      List.Sorted chromLe ks ∧
      between db (.dict locs) = .ok (ks.flatMap (windowFilter db locs)) ∧
      (∀ v, v ∈ ks.flatMap (windowFilter db locs) ↔
        ∃ w ∈ locs, v ∈ db ∧ v.chrom = w.1 ∧
          w.2.1 ≤ v.start ∧ v.start ≤ w.2.2)) ∧
    between db .notDict = .error .invalidArg := by
  refine ⟨⟨List.insertionSort chromLe (locs.map Prod.fst),
    List.perm_insertionSort chromLe _, List.sorted_insertionSort chromLe _,
    ?_, ?_⟩, rfl⟩
  · unfold between pySortChroms
    dsimp only
    rw [hc]
    rfl
  · intro v
    rw [List.mem_flatMap]
    constructor
    · rintro ⟨c, hcks, hvw⟩
      have hcmem : c ∈ locs.map Prod.fst :=
        ((List.perm_insertionSort chromLe _).mem_iff).mp hcks
      obtain ⟨w, hwmem, hwc⟩ := List.mem_map.mp hcmem
      have hlk : locs.lookup c = some w.2 := by
        rw [← hwc]
        exact lookup_of_nodup locs w.1 w.2 hnd hwmem
      unfold windowFilter at hvw
      rw [hlk] at hvw
      simp only [Option.getD_some] at hvw
      rw [List.mem_filter] at hvw
      obtain ⟨hvdb, hcond⟩ := hvw
      simp only [Bool.and_eq_true, beq_iff_eq, decide_eq_true_eq] at hcond
      exact ⟨w, hwmem, hvdb, hwc ▸ hcond.1.1, hcond.1.2, hcond.2⟩
    · rintro ⟨w, hwmem, hvdb, hchrom, h1, h2⟩
      refine ⟨w.1, ?_, ?_⟩
      · rw [(List.perm_insertionSort chromLe _).mem_iff]
        exact List.mem_map.mpr ⟨w, hwmem, rfl⟩
      · have hlk : locs.lookup w.1 = some w.2 :=
          lookup_of_nodup locs w.1 w.2 hnd hwmem
        unfold windowFilter
        rw [hlk]
        simp only [Option.getD_some]
        rw [List.mem_filter]
        refine ⟨hvdb, ?_⟩
        simp only [Bool.and_eq_true, beq_iff_eq, decide_eq_true_eq]
        exact ⟨⟨hchrom, h1⟩, h2⟩

/-- Counterexample for C2: a dict mixing an integer-ranked chromosome
(`chr1`) with a string-ranked one (`chrUn`) makes the key sort compare an
`int` with a `str`, a `TypeError` under Python 3 — `between` fails even
though both windows contain matching variants (second conjunct). -/
theorem between_cex :
    between [⟨1, "rs1", "chr1", 5, 6, "+"⟩, ⟨2, "rs2", "chrUn", 5, 6, "+"⟩]
      (.dict [("chr1", (0, 10)), ("chrUn", (0, 10))]) = .error .typeError ∧
    windowFilter [⟨1, "rs1", "chr1", 5, 6, "+"⟩, ⟨2, "rs2", "chrUn", 5, 6, "+"⟩]
      [("chr1", (0, 10)), ("chrUn", (0, 10))] "chr1" =
      [⟨1, "rs1", "chr1", 5, 6, "+"⟩] := ⟨rfl, rfl⟩

/-- Witness for C2: the amended statement instantiated at a concrete store
and a two-chromosome dict given in reverse rank order. -/
theorem between_spec_witness :
    (∃ ks, ks.Perm (([("chrX", ((0 : Int), (10 : Int))),
        ("chr1", ((0 : Int), (10 : Int)))]).map Prod.fst) ∧
      List.Sorted chromLe ks ∧
      between [⟨1, "rs1", "chr1", 5, 6, "+"⟩, ⟨2, "rs2", "chrX", 5, 6, "+"⟩]
          (.dict [("chrX", (0, 10)), ("chr1", (0, 10))]) =
        .ok (ks.flatMap (windowFilter
          [⟨1, "rs1", "chr1", 5, 6, "+"⟩, ⟨2, "rs2", "chrX", 5, 6, "+"⟩]
          [("chrX", (0, 10)), ("chr1", (0, 10))])) ∧
      (∀ v, v ∈ ks.flatMap (windowFilter
          [⟨1, "rs1", "chr1", 5, 6, "+"⟩, ⟨2, "rs2", "chrX", 5, 6, "+"⟩]
          [("chrX", (0, 10)), ("chr1", (0, 10))]) ↔
        ∃ w ∈ [("chrX", ((0 : Int), (10 : Int))),
            ("chr1", ((0 : Int), (10 : Int)))],
          v ∈ [⟨1, "rs1", "chr1", 5, 6, "+"⟩, ⟨2, "rs2", "chrX", 5, 6, "+"⟩] ∧
            v.chrom = w.1 ∧ w.2.1 ≤ v.start ∧ v.start ≤ w.2.2)) ∧
    between [⟨1, "rs1", "chr1", 5, 6, "+"⟩, ⟨2, "rs2", "chrX", 5, 6, "+"⟩]
      .notDict = .error .invalidArg :=
  between_spec [⟨1, "rs1", "chr1", 5, 6, "+"⟩, ⟨2, "rs2", "chrX", 5, 6, "+"⟩]
    [("chrX", (0, 10)), ("chr1", (0, 10))] (by decide) (by decide)
end DbSNP
